import Mathlib

/-!
Shallow embedding of the `no-jsx-as-prop` lint rule
(`crates/oxc_linter/src/rules/react_perf/no_jsx_as_prop.rs`).

The rule scans a JSX element's attributes; for each attribute whose value is
an expression container holding a real expression, it classifies the
expression (`check_expression`) and emits a warning diagnostic at the span of
the first JSX element literal reachable through parenthesization, logical
operands and conditional branches.
-/

namespace OxcNoJsxAsProp

/-- A source span (`oxc_span::Span`): start and end offsets. The rule never
does arithmetic on spans; they are carried opaquely into diagnostics. -/
structure Span where
  start : Nat
  stop : Nat
deriving DecidableEq, Repr

/-- Diagnostic severity, as in `miette`. The rule always uses `warning`. -/
inductive Severity where
  | advice
  | warning
  | error
deriving DecidableEq, Repr

/-- A diagnostic as produced for the lint context: severity, message, help
text and the labelled span. -/
structure Diagnostic where
  severity : Severity
  message : String
  help : String
  span : Span
deriving DecidableEq, Repr

/-- The (fixed) error message of `NoJsxAsPropDiagnostic`. -/
def noJsxAsPropMessage : String :=
  "eslint-plugin-react-perf(no-jsx-as-prop): JSX attribute values should not contain other JSX."

/-- The (fixed) help text of `NoJsxAsPropDiagnostic`. -/
def noJsxAsPropHelp : String :=
  "simplify props or memoize props in the parent component (https://react.dev/reference/react/memo#my-component-rerenders-when-a-prop-is-an-object-or-array)."

/-- `struct NoJsxAsPropDiagnostic(#[label] pub Span)`: the rule's diagnostic
type, carrying only the labelled span. -/
structure NoJsxAsPropDiagnostic where
  span : Span
deriving DecidableEq, Repr

/-- Rendering `NoJsxAsPropDiagnostic` into a full diagnostic, following the
`#[error(...)]`/`#[diagnostic(severity(warning), help(...))]` derive
attributes on the struct. -/
def NoJsxAsPropDiagnostic.toDiagnostic (d : NoJsxAsPropDiagnostic) : Diagnostic :=
  { severity := Severity.warning
    message := noJsxAsPropMessage
    help := noJsxAsPropHelp
    span := d.span }

/-- Logical operators of `LogicalExpression` (`||`, `&&`, `??`). The rule
treats every logical expression alike, whatever the operator. -/
inductive LogicalOperator where
  | or
  | and
  | coalesce
deriving DecidableEq, Repr

/-- The expression shapes relevant to the rule, mirroring the arms of
`check_expression`'s match over `oxc_ast::ast::Expression`:
`JSXElement`, `LogicalExpression`, `ConditionalExpression` and
`ParenthesizedExpression` are distinguished; every other shape is only ever
hit by the `_ => None` catch-all, so member accesses, calls and identifiers
are kept as representative opaque shapes together with a generic `other`.
A JSX element expression is represented by its span, the only field the rule
reads (`expr.span`); JSX fragments are a distinct `oxc_ast` variant that the
match does not name, hence a separate constructor here. -/
inductive Expression where
  | jsxElement (span : Span)
  | jsxFragment (span : Span)
  | logicalExpression (op : LogicalOperator) (left right : Expression)
  | conditionalExpression (test consequent alternate : Expression)
  | parenthesizedExpression (expression : Expression)
  | identifierReference (name : String)
  | staticMemberExpression (object : Expression) (property : String)
  | callExpression (callee : Expression)
  | other
deriving DecidableEq, Repr

/-- Modelled from the spec: `Expression::without_parenthesized` of `oxc_ast`
(only the rule file is in the sources at hand). "Parenthesization is
unwrapped transparently at every classification step": it strips every outer
layer of `ParenthesizedExpression` and returns the first non-parenthesized
node. -/
def Expression.without_parenthesized : Expression → Expression
  | .parenthesizedExpression e => e.without_parenthesized
  | e => e

theorem without_parenthesized_sizeOf_le (e : Expression) :
    sizeOf e.without_parenthesized ≤ sizeOf e := by
  induction e with
  | parenthesizedExpression inner ih =>
    simp only [Expression.without_parenthesized,
      Expression.parenthesizedExpression.sizeOf_spec]
    omega
  | jsxElement s => simp [Expression.without_parenthesized]
  | jsxFragment s => simp [Expression.without_parenthesized]
  | logicalExpression op l r ihl ihr => simp [Expression.without_parenthesized]
  | conditionalExpression t c a iht ihc iha => simp [Expression.without_parenthesized]
  | identifierReference n => simp [Expression.without_parenthesized]
  | staticMemberExpression o p iho => simp [Expression.without_parenthesized]
  | callExpression f ihf => simp [Expression.without_parenthesized]
  | other => simp [Expression.without_parenthesized]

/-- `fn check_expression(expr: &Expression) -> Option<Span>`: unwrap
parenthesization, then: a JSX element matches with its own span; a logical
expression tries the left operand, else the right; a conditional expression
tries the consequent, else the alternate; anything else is no match. -/
def check_expression (expr : Expression) : Option Span :=
  match h : expr.without_parenthesized with
  | .jsxElement span => some span
  | .logicalExpression _ left right =>
    (check_expression left).orElse fun _ => check_expression right
  | .conditionalExpression _ consequent alternate =>
    (check_expression consequent).orElse fun _ => check_expression alternate
  | _ => none
termination_by sizeOf expr
decreasing_by
  all_goals
    have hle := without_parenthesized_sizeOf_le expr
    rw [h] at hle
    simp only [Expression.logicalExpression.sizeOf_spec,
      Expression.conditionalExpression.sizeOf_spec] at hle
    omega

/-- `JSXExpression`: either a real expression or the empty expression
(as in `attr={}`). -/
inductive JSXExpression where
  | expr (e : Expression)
  | emptyExpression
deriving DecidableEq, Repr

/-- `JSXExpressionContainer { expression, span }` (the rule's pattern ignores
the remaining fields via `..`). -/
structure JSXExpressionContainer where
  expression : JSXExpression
  span : Span
deriving DecidableEq, Repr

/-- `JSXAttributeValue`: string literal, expression container, or a JSX
element / fragment used directly as an attribute value. -/
inductive JSXAttributeValue where
  | stringLiteral (span : Span)
  | expressionContainer (container : JSXExpressionContainer)
  | element (span : Span)
  | fragment (span : Span)
deriving DecidableEq, Repr

/-- `JSXAttributeItem`: an ordinary named attribute with an optional value,
or a spread attribute. -/
inductive JSXAttributeItem where
  | attribute (name : String) (value : Option JSXAttributeValue)
  | spreadAttribute
deriving DecidableEq, Repr

/-- `JSXOpeningElement`, reduced to its ordered attribute list (the only
field the rule reads). -/
structure JSXOpeningElement where
  attributes : List JSXAttributeItem
deriving DecidableEq, Repr

/-- `JSXElement`, reduced to its opening element. -/
structure JSXElement where
  opening_element : JSXOpeningElement
deriving DecidableEq, Repr

/-- Modelled from the spec: `get_prop_value(attribute) -> optional
AttributeValue` of `crate::utils` (not among the sources at hand), "which
also encapsulates handling of spread-attributes and value-less attributes
(treated as extraction returning nothing)": a spread attribute or an
attribute without a value yields nothing, otherwise the attribute's value. -/
def get_prop_value : JSXAttributeItem → Option JSXAttributeValue
  | .spreadAttribute => none
  | .attribute _ value => value

/-- The attribute loop of `check_jsx_element`, with the lint context's
diagnostic sink modelled as the returned list: on `get_prop_value` returning
`None` the whole loop returns (`None => return`); an expression container
holding a real expression is classified and, on a match, one diagnostic is
emitted at the matched span; every other value falls to `_ => {}` and the
loop continues. -/
def check_jsx_element_attrs : List JSXAttributeItem → List Diagnostic
  | [] => []
  | item :: rest =>
    match get_prop_value item with
    | none => []
    | some (JSXAttributeValue.expressionContainer
        { expression := JSXExpression.expr e, span := _ }) =>
      (match check_expression e with
       | some span => [(NoJsxAsPropDiagnostic.mk span).toDiagnostic]
       | none => []) ++ check_jsx_element_attrs rest
    | some _ => check_jsx_element_attrs rest

/-- `fn check_jsx_element(jsx_elem, ctx)`: iterate over
`jsx_elem.opening_element.attributes`, returning the emitted diagnostics. -/
def check_jsx_element (jsx_elem : JSXElement) : List Diagnostic :=
  check_jsx_element_attrs jsx_elem.opening_element.attributes

/-- Whether an expression shape is one of the three named arms of
`check_expression`'s match (`JSXElement`, `LogicalExpression`,
`ConditionalExpression`); every other shape falls to `_ => None`. -/
def isMatchArm : Expression → Bool
  | .jsxElement _ => true
  | .logicalExpression _ _ _ => true
  | .conditionalExpression _ _ _ => true
  | _ => false

/-- Spans of all JSX element literals occurring in an expression, in
depth-first source order; used to state that a reported span is always the
span of some contained JSX element literal. -/
def Expression.jsxSpans : Expression → List Span
  | .jsxElement s => [s]
  | .logicalExpression _ l r => l.jsxSpans ++ r.jsxSpans
  | .conditionalExpression t c a => t.jsxSpans ++ c.jsxSpans ++ a.jsxSpans
  | .parenthesizedExpression e => e.jsxSpans
  | .staticMemberExpression o _ => o.jsxSpans
  | .callExpression f => f.jsxSpans
  | _ => []

/-- Erase every layer of parenthesization reachable through the shapes the
classifier traverses: parenthesized wrappers themselves, and the operands of
logical and conditional expressions. Other shapes are left untouched (the
classifier never looks inside them). -/
def stripParens : Expression → Expression
  | .parenthesizedExpression e => stripParens e
  | .logicalExpression op l r => .logicalExpression op (stripParens l) (stripParens r)
  | .conditionalExpression t c a =>
    .conditionalExpression (stripParens t) (stripParens c) (stripParens a)
  | e => e

/-- Nesting depth of the shapes the classifier recurses through
(logical / conditional / parenthesized); leaves have depth 0. -/
def Expression.nestingDepth : Expression → Nat
  | .logicalExpression _ l r => max l.nestingDepth r.nestingDepth + 1
  | .conditionalExpression t c a =>
    max t.nestingDepth (max c.nestingDepth a.nestingDepth) + 1
  | .parenthesizedExpression e => e.nestingDepth + 1
  | _ => 0

/-- Whether an attribute value is an expression container holding a real
expression, the only shape of `get_prop_value`'s result that
`check_jsx_element` inspects further; every other shape falls to `_ => {}`. -/
def isExpressionContainerExpr : JSXAttributeValue → Bool
  | .expressionContainer { expression := JSXExpression.expr _, span := _ } => true
  | _ => false

/-- A fuelled rendition of `check_expression`: each recursive call consumes
one unit of fuel, and exhausted fuel yields `none` (non-termination). It is
used to state that the classifier's recursion is bounded by the nesting
depth of the expression. -/
def check_expression_fuel : Nat → Expression → Option (Option Span)
  | 0, _ => none
  | n + 1, expr =>
    match expr.without_parenthesized with
    | .jsxElement span => some (some span)
    | .logicalExpression _ left right =>
      match check_expression_fuel n left with
      | none => none
      | some (some s) => some (some s)
      | some none => check_expression_fuel n right
    | .conditionalExpression _ consequent alternate =>
      match check_expression_fuel n consequent with
      | none => none
      | some (some s) => some (some s)
      | some none => check_expression_fuel n alternate
    | _ => some none

theorem check_expression_congr (a b : Expression)
    (h : a.without_parenthesized = b.without_parenthesized) :
    check_expression a = check_expression b := by
  rw [check_expression, check_expression, h]

theorem check_expression_jsx (e : Expression) (s : Span)
    (h : e.without_parenthesized = .jsxElement s) :
    check_expression e = some s := by
  rw [check_expression]
  split <;> simp_all

theorem check_expression_logical (e : Expression) (op : LogicalOperator)
    (l r : Expression)
    (h : e.without_parenthesized = .logicalExpression op l r) :
    check_expression e = (check_expression l).orElse fun _ => check_expression r := by
  rw [check_expression]
  split <;> simp_all

theorem check_expression_conditional (e : Expression) (t c a : Expression)
    (h : e.without_parenthesized = .conditionalExpression t c a) :
    check_expression e = (check_expression c).orElse fun _ => check_expression a := by
  rw [check_expression]
  split <;> simp_all

theorem check_expression_no_arm (e : Expression)
    (h : isMatchArm e.without_parenthesized = false) :
    check_expression e = none := by
  rw [check_expression]
  split <;> simp_all [isMatchArm]

theorem check_expression_paren (e : Expression) :
    check_expression (.parenthesizedExpression e) = check_expression e :=
  check_expression_congr _ _ (by simp [Expression.without_parenthesized])

theorem without_parenthesized_jsxSpans (e : Expression) :
    e.without_parenthesized.jsxSpans = e.jsxSpans := by
  induction e with
  | parenthesizedExpression inner ih =>
    simpa [Expression.without_parenthesized, Expression.jsxSpans] using ih
  | jsxElement s => rfl
  | jsxFragment s => rfl
  | logicalExpression op l r ihl ihr => rfl
  | conditionalExpression t c a iht ihc iha => rfl
  | identifierReference n => rfl
  | staticMemberExpression o p iho => rfl
  | callExpression f ihf => rfl
  | other => rfl

/-- Every span returned by the classifier is the span of a JSX element
literal contained in the classified expression. -/
theorem check_expression_span_mem (e : Expression) (s : Span)
    (h : check_expression e = some s) : s ∈ e.jsxSpans := by
  induction e with
  | jsxElement s0 =>
    rw [check_expression_jsx (.jsxElement s0) s0 rfl] at h
    simp [Expression.jsxSpans]
    exact (Option.some_inj.mp h).symm
  | jsxFragment s0 =>
    rw [check_expression_no_arm _ (by rfl)] at h
    exact absurd h (by simp)
  | logicalExpression op l r ihl ihr =>
    rw [check_expression_logical (.logicalExpression op l r) op l r rfl] at h
    simp [Expression.jsxSpans]
    cases hl : check_expression l with
    | some s1 =>
      rw [hl] at h
      have hs : s1 = s := by simpa [Option.orElse] using h
      subst hs
      exact Or.inl (ihl hl)
    | none =>
      rw [hl] at h
      simp [Option.orElse] at h
      exact Or.inr (ihr h)
  | conditionalExpression t c a iht ihc iha =>
    rw [check_expression_conditional (.conditionalExpression t c a) t c a rfl] at h
    simp [Expression.jsxSpans]
    cases hc : check_expression c with
    | some s1 =>
      rw [hc] at h
      have hs : s1 = s := by simpa [Option.orElse] using h
      subst hs
      exact Or.inr (Or.inl (ihc hc))
    | none =>
      rw [hc] at h
      simp [Option.orElse] at h
      exact Or.inr (Or.inr (iha h))
  | parenthesizedExpression inner ih =>
    rw [check_expression_paren] at h
    simpa [Expression.jsxSpans] using ih h
  | identifierReference n =>
    rw [check_expression_no_arm _ (by rfl)] at h
    exact absurd h (by simp)
  | staticMemberExpression o p iho =>
    rw [check_expression_no_arm _ (by rfl)] at h
    exact absurd h (by simp)
  | callExpression f ihf =>
    rw [check_expression_no_arm _ (by rfl)] at h
    exact absurd h (by simp)
  | other =>
    rw [check_expression_no_arm _ (by rfl)] at h
    exact absurd h (by simp)

theorem without_parenthesized_nestingDepth_le (e : Expression) :
    e.without_parenthesized.nestingDepth ≤ e.nestingDepth := by
  induction e with
  | parenthesizedExpression inner ih =>
    simp only [Expression.without_parenthesized, Expression.nestingDepth]
    omega
  | jsxElement s => exact Nat.le_refl _
  | jsxFragment s => exact Nat.le_refl _
  | logicalExpression op l r ihl ihr => exact Nat.le_refl _
  | conditionalExpression t c a iht ihc iha => exact Nat.le_refl _
  | identifierReference n => exact Nat.le_refl _
  | staticMemberExpression o p iho => exact Nat.le_refl _
  | callExpression f ihf => exact Nat.le_refl _
  | other => exact Nat.le_refl _

/-- With fuel exceeding the nesting depth, the fuelled classifier completes
and computes exactly `check_expression`. -/
theorem check_expression_fuel_correct :
    ∀ (n : Nat) (e : Expression), e.nestingDepth < n →
      check_expression_fuel n e = some (check_expression e) := by
  intro n
  induction n with
  | zero => intro e h; exact absurd h (Nat.not_lt_zero _)
  | succ m ih =>
    intro e h
    have hd := without_parenthesized_nestingDepth_le e
    cases he : e.without_parenthesized with
    | jsxElement s =>
      simp [check_expression_fuel, he, check_expression_jsx e s he]
    | logicalExpression op l r =>
      have hlr : max l.nestingDepth r.nestingDepth + 1 ≤ e.nestingDepth := by
        rw [he] at hd
        simpa [Expression.nestingDepth] using hd
      have hl : l.nestingDepth < m := by omega
      have hr : r.nestingDepth < m := by omega
      rw [check_expression_logical e op l r he]
      simp only [check_expression_fuel, he, ih l hl, ih r hr]
      cases check_expression l <;> simp [Option.orElse]
    | conditionalExpression t c a =>
      have hca : max t.nestingDepth (max c.nestingDepth a.nestingDepth) + 1 ≤
          e.nestingDepth := by
        rw [he] at hd
        simpa [Expression.nestingDepth] using hd
      have hc : c.nestingDepth < m := by omega
      have ha : a.nestingDepth < m := by omega
      rw [check_expression_conditional e t c a he]
      simp only [check_expression_fuel, he, ih c hc, ih a ha]
      cases check_expression c <;> simp [Option.orElse]
    | jsxFragment s =>
      simp [check_expression_fuel, he,
        check_expression_no_arm e (by simp [he, isMatchArm])]
    | parenthesizedExpression inner =>
      simp [check_expression_fuel, he,
        check_expression_no_arm e (by simp [he, isMatchArm])]
    | identifierReference nm =>
      simp [check_expression_fuel, he,
        check_expression_no_arm e (by simp [he, isMatchArm])]
    | staticMemberExpression o p =>
      simp [check_expression_fuel, he,
        check_expression_no_arm e (by simp [he, isMatchArm])]
    | callExpression f =>
      simp [check_expression_fuel, he,
        check_expression_no_arm e (by simp [he, isMatchArm])]
    | other =>
      simp [check_expression_fuel, he,
        check_expression_no_arm e (by simp [he, isMatchArm])]

/-- Once an attribute with no extractable value is reached, everything after
it is irrelevant to the scan's output. -/
theorem check_jsx_element_attrs_stop (item : JSXAttributeItem)
    (h : get_prop_value item = none) :
    ∀ (pre rest : List JSXAttributeItem),
      check_jsx_element_attrs (pre ++ item :: rest) =
        check_jsx_element_attrs (pre ++ [item]) := by
  intro pre
  induction pre with
  | nil => intro rest; simp [check_jsx_element_attrs, h]
  | cons p ps ih =>
    intro rest
    simp only [List.cons_append, check_jsx_element_attrs]
    split <;> simp [ih]

/-- Every diagnostic produced by the attribute loop carries the fixed
severity, message and help text, and its span is produced by classifying the
real expression of some scanned expression-container attribute; that span is
the span of a JSX element literal inside that expression. -/
theorem check_jsx_element_attrs_diag_spec (attrs : List JSXAttributeItem)
    (d : Diagnostic) (hd : d ∈ check_jsx_element_attrs attrs) :
    d.severity = Severity.warning ∧ d.message = noJsxAsPropMessage ∧
    d.help = noJsxAsPropHelp ∧
    ∃ item ∈ attrs, ∃ (e : Expression) (csp : Span),
      get_prop_value item = some (JSXAttributeValue.expressionContainer
        { expression := JSXExpression.expr e, span := csp }) ∧
      check_expression e = some d.span ∧ d.span ∈ e.jsxSpans := by
  induction attrs with
  | nil => exact absurd hd (by simp [check_jsx_element_attrs])
  | cons item rest ih =>
    rw [check_jsx_element_attrs] at hd
    rcases hget : get_prop_value item with _ | v
    · rw [hget] at hd
      exact absurd hd (by simp)
    · rw [hget] at hd
      rcases v with csp | c | csp | csp
      · simp only at hd
        rcases ih hd with ⟨h1, h2, h3, item', hmem, e, csp', hrest⟩
        exact ⟨h1, h2, h3, item', List.mem_cons_of_mem _ hmem, e, csp', hrest⟩
      · rcases c with ⟨ex, csp⟩
        rcases ex with e | _
        · simp only [List.mem_append] at hd
          rcases hd with hd | hd
          · rcases hce : check_expression e with _ | sp
            · rw [hce] at hd
              exact absurd hd (by simp)
            · rw [hce] at hd
              simp at hd
              subst hd
              refine ⟨rfl, rfl, rfl, item, List.mem_cons_self _ _, e, csp, hget,
                ?_, ?_⟩
              · exact hce
              · exact check_expression_span_mem e sp hce
          · rcases ih hd with ⟨h1, h2, h3, item', hmem, e', csp', hrest⟩
            exact ⟨h1, h2, h3, item', List.mem_cons_of_mem _ hmem, e', csp', hrest⟩
        · simp only at hd
          rcases ih hd with ⟨h1, h2, h3, item', hmem, e', csp', hrest⟩
          exact ⟨h1, h2, h3, item', List.mem_cons_of_mem _ hmem, e', csp', hrest⟩
      · simp only at hd
        rcases ih hd with ⟨h1, h2, h3, item', hmem, e', csp', hrest⟩
        exact ⟨h1, h2, h3, item', List.mem_cons_of_mem _ hmem, e', csp', hrest⟩
      · simp only at hd
        rcases ih hd with ⟨h1, h2, h3, item', hmem, e', csp', hrest⟩
        exact ⟨h1, h2, h3, item', List.mem_cons_of_mem _ hmem, e', csp', hrest⟩

/-- C1: an attribute whose extracted value is an expression container whose
inner expression, after unwrapping any parenthesization, is directly a JSX
element literal contributes exactly one diagnostic to the element's scan,
and that diagnostic's span is the literal's own span. -/
theorem jsx_literal_prop_emits_single_diagnostic_at_literal_span
    (item : JSXAttributeItem) (rest : List JSXAttributeItem)
    (e : Expression) (s csp : Span)
    (h1 : get_prop_value item = some (JSXAttributeValue.expressionContainer
      { expression := JSXExpression.expr e, span := csp }))
    (h2 : e.without_parenthesized = Expression.jsxElement s) :
    check_jsx_element { opening_element := { attributes := item :: rest } } =
      (NoJsxAsPropDiagnostic.mk s).toDiagnostic ::
        check_jsx_element { opening_element := { attributes := rest } } := by
  simp [check_jsx_element, check_jsx_element_attrs, h1,
    check_expression_jsx e s h2]

/-- Concrete instance of C1: `<Item jsx={<SubItem />} />` yields exactly one
diagnostic, at the span of `<SubItem />`. -/
theorem jsx_literal_prop_emits_single_diagnostic_at_literal_span_witness :
    check_jsx_element { opening_element := { attributes :=
      [JSXAttributeItem.attribute "jsx"
        (some (JSXAttributeValue.expressionContainer
          { expression := JSXExpression.expr (Expression.jsxElement ⟨11, 23⟩),
            span := ⟨10, 24⟩ }))] } } =
      (NoJsxAsPropDiagnostic.mk ⟨11, 23⟩).toDiagnostic ::
        check_jsx_element { opening_element := { attributes := [] } } :=
  jsx_literal_prop_emits_single_diagnostic_at_literal_span _ []
    (Expression.jsxElement ⟨11, 23⟩) ⟨11, 23⟩ ⟨10, 24⟩ rfl rfl

/-- C2: classifying a logical expression `a || b` tries the left operand
first; if it matches, its span is the result and the right operand is
irrelevant; otherwise the result is the right operand's classification. -/
theorem logical_left_operand_first_short_circuit (l r : Expression) :
    check_expression (Expression.logicalExpression LogicalOperator.or l r) =
      match check_expression l with
      | some s => some s
      | none => check_expression r := by
  rw [check_expression_logical (.logicalExpression .or l r) .or l r rfl]
  cases check_expression l <;> simp [Option.orElse]

/-- C3: classifying a conditional `a ? b : c` tries the consequent first,
then the alternate, and never classifies the test: the result does not
depend on the test at all, so a JSX literal sitting only in the test
position yields no match. -/
theorem conditional_consequent_first_test_never_classified
    (t c a : Expression) :
    (check_expression (Expression.conditionalExpression t c a) =
      match check_expression c with
      | some s => some s
      | none => check_expression a) ∧
    (∀ s : Span, check_expression c = none → check_expression a = none →
      check_expression (Expression.conditionalExpression
        (Expression.jsxElement s) c a) = none) := by
  constructor
  · rw [check_expression_conditional (.conditionalExpression t c a) t c a rfl]
    cases check_expression c <;> simp [Option.orElse]
  · intro s hc ha
    rw [check_expression_conditional
      (.conditionalExpression (.jsxElement s) c a) _ c a rfl, hc, ha]
    rfl

/-- Concrete instance of C3: a JSX literal in the test position of
`<jsx> ? x : y` produces no match when neither branch matches. -/
theorem conditional_consequent_first_test_never_classified_witness :
    check_expression (Expression.conditionalExpression
      (Expression.jsxElement ⟨5, 17⟩)
      (Expression.identifierReference "x")
      (Expression.identifierReference "y")) = none := by
  refine (conditional_consequent_first_test_never_classified
    Expression.other (Expression.identifierReference "x")
    (Expression.identifierReference "y")).2 ⟨5, 17⟩ ?_ ?_ <;>
    simp [check_expression, Expression.without_parenthesized]

/-- C4: classification is invariant under parenthesization — erasing every
parenthesized wrapper reachable through logical / conditional operands
leaves both the match / no-match outcome and the reported span unchanged. -/
theorem check_expression_invariant_under_parenthesization (e : Expression) :
    check_expression (stripParens e) = check_expression e := by
  induction e with
  | parenthesizedExpression inner ih =>
    simp only [stripParens, check_expression_paren]
    exact ih
  | logicalExpression op l r ihl ihr =>
    simp only [stripParens]
    rw [check_expression_logical
        (.logicalExpression op (stripParens l) (stripParens r)) op _ _ rfl,
      check_expression_logical (.logicalExpression op l r) op l r rfl,
      ihl, ihr]
  | conditionalExpression t c a iht ihc iha =>
    simp only [stripParens]
    rw [check_expression_conditional
        (.conditionalExpression (stripParens t) (stripParens c) (stripParens a))
        _ _ _ rfl,
      check_expression_conditional (.conditionalExpression t c a) t c a rfl,
      ihc, iha]
  | jsxElement s => simp [stripParens]
  | jsxFragment s => simp [stripParens]
  | identifierReference n => simp [stripParens]
  | staticMemberExpression o p iho => simp [stripParens]
  | callExpression f ihf => simp [stripParens]
  | other => simp [stripParens]

/-- C5: when `get_prop_value` yields nothing for an attribute, the scan of
that element returns immediately: an element starting at such an attribute
produces no diagnostics at all, and the scan's output is independent of
whatever attributes follow it. -/
theorem missing_prop_value_aborts_attribute_scan
    (pre : List JSXAttributeItem) (item : JSXAttributeItem)
    (rest rest' : List JSXAttributeItem)
    (h : get_prop_value item = none) :
    check_jsx_element { opening_element := { attributes := item :: rest } } = [] ∧
    check_jsx_element
        { opening_element := { attributes := pre ++ item :: rest } } =
      check_jsx_element
        { opening_element := { attributes := pre ++ item :: rest' } } := by
  constructor
  · simp [check_jsx_element, check_jsx_element_attrs, h]
  · show check_jsx_element_attrs _ = check_jsx_element_attrs _
    rw [check_jsx_element_attrs_stop item h pre rest,
      check_jsx_element_attrs_stop item h pre rest']

/-- Concrete instance of C5: a spread attribute stops the scan, so a later
attribute holding a JSX literal yields no diagnostic. -/
theorem missing_prop_value_aborts_attribute_scan_witness :
    check_jsx_element { opening_element := { attributes :=
      (JSXAttributeItem.spreadAttribute ::
        [JSXAttributeItem.attribute "jsx"
          (some (JSXAttributeValue.expressionContainer
            { expression := JSXExpression.expr (Expression.jsxElement ⟨30, 42⟩),
              span := ⟨29, 43⟩ }))]) } } = [] ∧
    check_jsx_element { opening_element := { attributes :=
      ([JSXAttributeItem.attribute "id"
        (some (JSXAttributeValue.stringLiteral ⟨6, 10⟩))] ++
        JSXAttributeItem.spreadAttribute ::
          [JSXAttributeItem.attribute "jsx"
            (some (JSXAttributeValue.expressionContainer
              { expression := JSXExpression.expr (Expression.jsxElement ⟨30, 42⟩),
                span := ⟨29, 43⟩ }))]) } } =
    check_jsx_element { opening_element := { attributes :=
      ([JSXAttributeItem.attribute "id"
        (some (JSXAttributeValue.stringLiteral ⟨6, 10⟩))] ++
        JSXAttributeItem.spreadAttribute :: []) } } :=
  missing_prop_value_aborts_attribute_scan
    [JSXAttributeItem.attribute "id"
      (some (JSXAttributeValue.stringLiteral ⟨6, 10⟩))]
    JSXAttributeItem.spreadAttribute
    [JSXAttributeItem.attribute "jsx"
      (some (JSXAttributeValue.expressionContainer
        { expression := JSXExpression.expr (Expression.jsxElement ⟨30, 42⟩),
          span := ⟨29, 43⟩ }))]
    [] rfl

/-- C6: an expression whose unwrapped shape is none of the three recognized
arms (JSX element, logical, conditional) — member accesses, calls,
identifiers, fragments, anything else — classifies as no match, and an
expression-container attribute carrying it contributes no diagnostic. -/
theorem unrecognized_expression_shapes_never_match
    (e : Expression) (item : JSXAttributeItem) (rest : List JSXAttributeItem)
    (csp : Span)
    (h : isMatchArm e.without_parenthesized = false) :
    check_expression e = none ∧
    (get_prop_value item = some (JSXAttributeValue.expressionContainer
        { expression := JSXExpression.expr e, span := csp }) →
      check_jsx_element { opening_element := { attributes := item :: rest } } =
        check_jsx_element { opening_element := { attributes := rest } }) := by
  have hn := check_expression_no_arm e h
  exact ⟨hn, fun h1 => by
    simp [check_jsx_element, check_jsx_element_attrs, h1, hn]⟩

/-- Concrete instance of C6: `<Item callback={this.props.jsx} />` — a plain
member access never matches and the attribute yields no diagnostic. -/
theorem unrecognized_expression_shapes_never_match_witness :
    check_expression (Expression.staticMemberExpression
      (Expression.staticMemberExpression
        (Expression.identifierReference "this") "props") "jsx") = none ∧
    check_jsx_element { opening_element := { attributes :=
      [JSXAttributeItem.attribute "callback"
        (some (JSXAttributeValue.expressionContainer
          { expression := JSXExpression.expr (Expression.staticMemberExpression
              (Expression.staticMemberExpression
                (Expression.identifierReference "this") "props") "jsx"),
            span := ⟨15, 30⟩ }))] } } =
      check_jsx_element { opening_element := { attributes := [] } } :=
  ⟨(unrecognized_expression_shapes_never_match
      (Expression.staticMemberExpression (Expression.staticMemberExpression
        (Expression.identifierReference "this") "props") "jsx")
      (JSXAttributeItem.attribute "callback"
        (some (JSXAttributeValue.expressionContainer
          { expression := JSXExpression.expr (Expression.staticMemberExpression
              (Expression.staticMemberExpression
                (Expression.identifierReference "this") "props") "jsx"),
            span := ⟨15, 30⟩ }))) [] ⟨15, 30⟩ rfl).1,
   (unrecognized_expression_shapes_never_match
      (Expression.staticMemberExpression (Expression.staticMemberExpression
        (Expression.identifierReference "this") "props") "jsx")
      (JSXAttributeItem.attribute "callback"
        (some (JSXAttributeValue.expressionContainer
          { expression := JSXExpression.expr (Expression.staticMemberExpression
              (Expression.staticMemberExpression
                (Expression.identifierReference "this") "props") "jsx"),
            span := ⟨15, 30⟩ }))) [] ⟨15, 30⟩ rfl).2 rfl⟩

/-- C7: every diagnostic the rule emits has severity warning, the fixed
message, the fixed help text, and a span that is the classifier's result for
some scanned expression-container attribute — the span of a JSX element
literal inside that attribute's expression, never the attribute's own
span. -/
theorem diagnostics_have_fixed_text_and_literal_span
    (el : JSXElement) (d : Diagnostic) (hd : d ∈ check_jsx_element el) :
    d.severity = Severity.warning ∧ d.message = noJsxAsPropMessage ∧
    d.help = noJsxAsPropHelp ∧
    ∃ item ∈ el.opening_element.attributes, ∃ (e : Expression) (csp : Span),
      get_prop_value item = some (JSXAttributeValue.expressionContainer
        { expression := JSXExpression.expr e, span := csp }) ∧
      check_expression e = some d.span ∧ d.span ∈ e.jsxSpans :=
  check_jsx_element_attrs_diag_spec el.opening_element.attributes d hd

/-- Concrete instance of C7: the one diagnostic of
`<Item jsx={<SubItem />} />` carries the fixed texts and the literal's
span. -/
theorem diagnostics_have_fixed_text_and_literal_span_witness :
    ((NoJsxAsPropDiagnostic.mk ⟨11, 23⟩).toDiagnostic).severity =
        Severity.warning ∧
    ((NoJsxAsPropDiagnostic.mk ⟨11, 23⟩).toDiagnostic).message =
        noJsxAsPropMessage ∧
    ((NoJsxAsPropDiagnostic.mk ⟨11, 23⟩).toDiagnostic).help =
        noJsxAsPropHelp ∧
    ∃ item ∈ (JSXElement.mk (JSXOpeningElement.mk
        [JSXAttributeItem.attribute "jsx"
          (some (JSXAttributeValue.expressionContainer
            { expression := JSXExpression.expr (Expression.jsxElement ⟨11, 23⟩),
              span := ⟨10, 24⟩ }))])).opening_element.attributes,
      ∃ (e : Expression) (csp : Span),
        get_prop_value item = some (JSXAttributeValue.expressionContainer
          { expression := JSXExpression.expr e, span := csp }) ∧
        check_expression e =
          some ((NoJsxAsPropDiagnostic.mk ⟨11, 23⟩).toDiagnostic).span ∧
        ((NoJsxAsPropDiagnostic.mk ⟨11, 23⟩).toDiagnostic).span ∈
          e.jsxSpans := by
  refine diagnostics_have_fixed_text_and_literal_span
    (JSXElement.mk (JSXOpeningElement.mk
      [JSXAttributeItem.attribute "jsx"
        (some (JSXAttributeValue.expressionContainer
          { expression := JSXExpression.expr (Expression.jsxElement ⟨11, 23⟩),
            span := ⟨10, 24⟩ }))]))
    ((NoJsxAsPropDiagnostic.mk ⟨11, 23⟩).toDiagnostic) ?_
  simp [check_jsx_element, check_jsx_element_attrs, get_prop_value,
    check_expression, Expression.without_parenthesized]

/-- C8: the classifier is total and terminating: with fuel one more than the
expression's logical / conditional / parenthesized nesting depth, the
fuelled classifier completes (never exhausts its fuel) and returns exactly
the value of the total function `check_expression`. -/
theorem check_expression_total_depth_bounded (e : Expression) :
    check_expression_fuel (e.nestingDepth + 1) e =
      some (check_expression e) :=
  check_expression_fuel_correct (e.nestingDepth + 1) e (Nat.lt_succ_self _)

/-- C9: a JSX fragment never classifies as a match, and an attribute whose
value is directly a JSX element or fragment (not wrapped in an expression
container) is skipped without emitting a diagnostic. -/
theorem fragments_and_direct_markup_values_skipped
    (e : Expression) (s sp sp' : Span) (item item' : JSXAttributeItem)
    (rest : List JSXAttributeItem) :
    (e.without_parenthesized = Expression.jsxFragment s →
      check_expression e = none) ∧
    (get_prop_value item = some (JSXAttributeValue.element sp) →
      check_jsx_element { opening_element := { attributes := item :: rest } } =
        check_jsx_element { opening_element := { attributes := rest } }) ∧
    (get_prop_value item' = some (JSXAttributeValue.fragment sp') →
      check_jsx_element { opening_element := { attributes := item' :: rest } } =
        check_jsx_element { opening_element := { attributes := rest } }) := by
  refine ⟨fun he => check_expression_no_arm e (by simp [he, isMatchArm]),
    fun h1 => ?_, fun h2 => ?_⟩
  · simp [check_jsx_element, check_jsx_element_attrs, h1]
  · simp [check_jsx_element, check_jsx_element_attrs, h2]

/-- Concrete instance of C9: `attr={<></>}` matches nothing, and
element-valued / fragment-valued attributes are skipped. -/
theorem fragments_and_direct_markup_values_skipped_witness :
    check_expression (Expression.jsxFragment ⟨2, 8⟩) = none ∧
    check_jsx_element { opening_element := { attributes :=
        (JSXAttributeItem.attribute "a"
          (some (JSXAttributeValue.element ⟨5, 9⟩)) :: []) } } =
      check_jsx_element { opening_element := { attributes := [] } } ∧
    check_jsx_element { opening_element := { attributes :=
        (JSXAttributeItem.attribute "b"
          (some (JSXAttributeValue.fragment ⟨5, 9⟩)) :: []) } } =
      check_jsx_element { opening_element := { attributes := [] } } := by
  have h := fragments_and_direct_markup_values_skipped
    (Expression.jsxFragment ⟨2, 8⟩) ⟨2, 8⟩ ⟨5, 9⟩ ⟨5, 9⟩
    (JSXAttributeItem.attribute "a" (some (JSXAttributeValue.element ⟨5, 9⟩)))
    (JSXAttributeItem.attribute "b" (some (JSXAttributeValue.fragment ⟨5, 9⟩)))
    []
  exact ⟨h.1 rfl, h.2.1 rfl, h.2.2 rfl⟩

/-- C10: an attribute whose extracted value is not an expression container
holding a real expression — an empty container `attr={}`, a string literal,
a direct element or fragment — is skipped and the scan continues with the
remaining attributes, in contrast to the extraction-yields-nothing case. -/
theorem non_expression_container_values_skipped
    (item : JSXAttributeItem) (rest : List JSXAttributeItem)
    (v : JSXAttributeValue)
    (h1 : get_prop_value item = some v)
    (h2 : isExpressionContainerExpr v = false) :
    check_jsx_element { opening_element := { attributes := item :: rest } } =
      check_jsx_element { opening_element := { attributes := rest } } := by
  show check_jsx_element_attrs _ = check_jsx_element_attrs _
  simp only [check_jsx_element_attrs]
  rw [h1]
  rcases v with csp | ⟨ex, csp⟩ | csp | csp
  · rfl
  · cases ex with
    | expr e => exact absurd h2 (by simp [isExpressionContainerExpr])
    | emptyExpression => rfl
  · rfl
  · rfl

/-- Concrete instance of C10: `attr={}` is skipped and the scan still
reaches the following attribute. -/
theorem non_expression_container_values_skipped_witness :
    check_jsx_element { opening_element := { attributes :=
      (JSXAttributeItem.attribute "a"
        (some (JSXAttributeValue.expressionContainer
          { expression := JSXExpression.emptyExpression, span := ⟨4, 6⟩ })) ::
        [JSXAttributeItem.attribute "jsx"
          (some (JSXAttributeValue.expressionContainer
            { expression := JSXExpression.expr (Expression.jsxElement ⟨20, 32⟩),
              span := ⟨19, 33⟩ }))]) } } =
    check_jsx_element { opening_element := { attributes :=
      [JSXAttributeItem.attribute "jsx"
        (some (JSXAttributeValue.expressionContainer
          { expression := JSXExpression.expr (Expression.jsxElement ⟨20, 32⟩),
            span := ⟨19, 33⟩ }))] } } :=
  non_expression_container_values_skipped
    (JSXAttributeItem.attribute "a"
      (some (JSXAttributeValue.expressionContainer
        { expression := JSXExpression.emptyExpression, span := ⟨4, 6⟩ })))
    [JSXAttributeItem.attribute "jsx"
      (some (JSXAttributeValue.expressionContainer
        { expression := JSXExpression.expr (Expression.jsxElement ⟨20, 32⟩),
          span := ⟨19, 33⟩ }))]
    (JSXAttributeValue.expressionContainer
      { expression := JSXExpression.emptyExpression, span := ⟨4, 6⟩ })
    rfl rfl

end OxcNoJsxAsProp
